import Mathlib

/-!
Verification development for the Doris backend snapshot loader
(be/src/runtime/snapshot_loader.cpp).

The C++ code is shallowly embedded: pure helpers become Lean functions on
String / List Char / Nat / Int; the stateful orchestrators (upload, download,
move, the per-file loops) become explicit state-passing functions whose
external effects (remote filesystem calls, local filesystem calls, RPCs,
hashing) are received through oracle functions and recorded as explicit
action traces.  C++ machine integers are modelled as Int (no path in the
embedded code depends on overflow behaviour); C++ std::string is modelled as
Lean String (the paths and names involved are treated as character strings;
std::string byte positions coincide with character positions for the ASCII
names the loader manipulates).
-/

namespace SnapshotLoaderModel

/-! ## Generic helpers (association lists standing in for std::map) -/

/-- Lookup in an association list; stands in for std::map::find keyed lookup. -/
def lookupA {α β : Type} [DecidableEq α] : List (α × β) → α → Option β
  | [], _ => none
  | (k, v) :: rest, key => if k = key then some v else lookupA rest key

/-- std::map::emplace semantics: insert only if the key is not present yet. -/
def emplace {α β : Type} [DecidableEq α] (m : List (α × β)) (k : α) (v : β) :
    List (α × β) :=
  match lookupA m k with
  | some _ => m
  | none => m ++ [(k, v)]

/-! ## Character-level string primitives used by the path codec -/

/-- std::string::find_last_of(c): index of the last occurrence of c, if any. -/
def findLastOf : List Char → Char → Option Nat
  | [], _ => none
  | c :: cs, ch =>
    match findLastOf cs ch with
    | some i => some (i + 1)
    | none => if c = ch then some 0 else none

/-- std::string::find_last_of(c, bound): index of the last occurrence of c at
an index less than or equal to bound, if any. -/
def findLastOfLe : List Char → Char → Nat → Option Nat
  | [], _, _ => none
  | c :: cs, ch, bound =>
    match bound with
    | 0 => if c = ch then some 0 else none
    | b + 1 =>
      match findLastOfLe cs ch b with
      | some i => some (i + 1)
      | none => if c = ch then some 0 else none

/-- Whitespace as skipped by the default-configured C++ stream extraction. -/
def isCppSpace (c : Char) : Bool :=
  c = ' ' || c = '\t' || c = '\n' || c = '\r' || c = '\x0b' || c = '\x0c'

/-- Decimal value of a digit string. -/
def natOfDigits (l : List Char) : Nat :=
  l.foldl (fun a c => a * 10 + (c.toNat - 48)) 0

/-- C++ stringstream integer extraction (operator>> into an integer): skip
leading whitespace, read an optional sign and a maximal digit run, ignore the
rest.  When no digit is found the extraction fails and (since C++11) stores 0;
the snapshot loader never checks the stream state, so only the stored value
matters.  Overflow clamping is not modelled: no claim depends on it. -/
def cppReadInt (s : List Char) : Int :=
  let s1 := s.dropWhile isCppSpace
  match s1 with
  | '-' :: rest =>
    let d := rest.takeWhile Char.isDigit
    if d.isEmpty then 0 else -(natOfDigits d : Int)
  | '+' :: rest =>
    let d := rest.takeWhile Char.isDigit
    if d.isEmpty then 0 else (natOfDigits d : Int)
  | _ =>
    let d := s1.takeWhile Char.isDigit
    if d.isEmpty then 0 else (natOfDigits d : Int)

/-- Embedding of the anonymous-namespace helper _end_with (snapshot_loader.cpp
lines 83-86): str.size() greater or equal match.size() and the final
match.size() characters of str equal match. -/
def end_with (s m : String) : Bool :=
  decide (m.toList.length ≤ s.toList.length) &&
    (s.toList.drop (s.toList.length - m.toList.length) == m.toList)

/-! ## Path codec -/

/-- Embedding of SnapshotLoader::_get_tablet_id_and_schema_hash_from_file_path
(lines 846-875).  Splits on the last two '/' separators and extracts the two
trailing components with C++ stream semantics (cppReadInt).  Note the source
computes find_last_of("/", pos - 1) with size_t arithmetic: when pos = 0 the
bound wraps to npos and the search finds position 0 itself; with Nat
subtraction the bound is 0 and the search also finds position 0, so the two
agree.  Returns (tablet_id, schema_hash). -/
def get_tablet_id_and_schema_hash_from_file_path (src_path : String) :
    Except Unit (Int × Int) :=
  let s := src_path.toList
  match findLastOf s '/' with
  | none => .error ()
  | some pos =>
    if pos = s.length - 1 then .error ()
    else
      let schema_hash := cppReadInt (s.drop (pos + 1))
      match findLastOfLe s '/' (pos - 1) with
      | none => .error ()
      | some pos2 =>
        let tablet_id := cppReadInt ((s.drop (pos2 + 1)).take (pos - pos2))
        .ok (tablet_id, schema_hash)

/-- Embedding of SnapshotLoader::_get_tablet_id_from_remote_path (lines
932-947): split on the last underscore and read the trailing token. -/
def get_tablet_id_from_remote_path (remote_path : String) : Except Unit Int :=
  match findLastOf remote_path.toList '_' with
  | none => .error ()
  | some pos => .ok (cppReadInt (remote_path.toList.drop (pos + 1)))

/-- Embedding of SnapshotLoader::_replace_tablet_id (lines 913-930). -/
def replace_tablet_id (file_name : String) (tablet_id : Int) :
    Except Unit String :=
  if end_with file_name ".hdr" then .ok (toString tablet_id ++ ".hdr")
  else if end_with file_name ".idx" || end_with file_name ".dat" then
    .ok file_name
  else .error ()

/-! ## Status and effect types -/

/-- The status-code subset returned by the FE snapshotLoaderReport RPC that the
loader distinguishes: CANCELLED versus everything else. -/
inductive TStatusCode where
  | OK
  | CANCELLED
  | INTERNAL_ERROR
deriving DecidableEq

/-- The Status kinds produced by the embedded snapshot-loader code paths. -/
inductive LStatus where
  | ok
  | cancelled
  | internalError
  | runtimeError
  | ioError
  | exceededLimit
  | obtainLockFailed
  | fatalError
deriving DecidableEq

/-- io::FileSystemType variants dispatched on by upload_with_checksum. -/
inductive FileSystemType where
  | LOCAL
  | S3
  | HDFS
  | BROKER
deriving DecidableEq

/-- Remote-filesystem effects issued by upload_with_checksum. -/
inductive FsAction where
  | upload (local_path remote_path : String)
  | rename (orig dest : String)
deriving DecidableEq

/-! ## upload_with_checksum (lines 63-81) -/

/-- Embedding of the anonymous-namespace helper upload_with_checksum.  The
remote filesystem calls are received as oracles (uploadOk, renameOk) telling
whether each call succeeds; the trace of attempted calls is returned together
with the resulting status.  The default case of the switch throws
Exception(Status::FatalError(...)), embedded as LStatus.fatalError with no
filesystem call attempted. -/
def upload_with_checksum (fs_type : FileSystemType)
    (local_path remote_path checksum : String)
    (uploadOk : String → String → Bool) (renameOk : String → String → Bool) :
    List FsAction × LStatus :=
  let full_remote_path := remote_path ++ "." ++ checksum
  match fs_type with
  | .HDFS | .BROKER =>
    let temp := remote_path ++ ".part"
    if uploadOk local_path temp then
      if renameOk temp full_remote_path then
        ([.upload local_path temp, .rename temp full_remote_path], .ok)
      else ([.upload local_path temp, .rename temp full_remote_path], .ioError)
    else ([.upload local_path temp], .ioError)
  | .S3 =>
    if uploadOk local_path full_remote_path then
      ([.upload local_path full_remote_path], .ok)
    else ([.upload local_path full_remote_path], .ioError)
  | .LOCAL => ([], .fatalError)

/-! ## Progress reporting (lines 951-990) -/

/-- Result of one _report_every call: the new value of the counter, whether the
RPC to the frontend was issued, and whether the call returned the Cancelled
status (every other outcome returns OK). -/
structure ReportResult where
  counter : Int
  issued : Bool
  cancelled : Bool
deriving DecidableEq

/-- Embedding of SnapshotLoader::_report_every.  The RPC outcome is an oracle:
none models a transport-level rpc failure, some code models a completed RPC
whose returned status code is code.  On transport failure the function returns
OK without resetting the counter; on a completed RPC the counter is reset and
only code = CANCELLED produces the cancellation result. -/
def report_every (report_threshold : Int) (counter : Int)
    (rpcResult : Option TStatusCode) : ReportResult :=
  let c := counter + 1
  if c ≤ report_threshold then ⟨c, false, false⟩
  else
    match rpcResult with
    | none => ⟨c, true, false⟩
    | some code => ⟨0, true, decide (code = TStatusCode.CANCELLED)⟩

/-! ## Checksum-indexed remote listing (lines 992-1011) -/

/-- Remote FileStat: stripped name, md5 suffix, size (snapshot_loader.h). -/
structure FileStat where
  name : String
  md5 : String
  size : Nat
deriving DecidableEq

/-- Embedding of SnapshotLoader::_list_with_checksum.  The raw remote listing
(file name, file size) is folded into a map keyed by the name stripped of its
final dot-separated segment; names with no dot, or ending in a dot, are
skipped.  The map is an association list built with std::map::emplace
semantics (first writer wins); the iteration order of the C++ std::map is by
sorted key, which no embedded claim depends on. -/
def list_with_checksum (files : List (String × Nat)) : List (String × FileStat) :=
  files.foldl
    (fun acc p =>
      let file_name := p.1.toList
      match findLastOf file_name '.' with
      | none => acc
      | some pos =>
        if pos = file_name.length - 1 then acc
        else
          let stripped := String.mk (file_name.take pos)
          emplace acc stripped ⟨stripped, String.mk (file_name.drop (pos + 1)), p.2⟩)
    []

/-! ## Upload orchestrator (lines 124-217) -/

/-- Per-file transfer decision of SnapshotLoader::upload (lines 184-196):
upload unless the remote map has the file under the same (stripped) name with
the same md5. -/
def need_upload (remote_files : List (String × FileStat))
    (local_file md5sum : String) : Bool :=
  match lookupA remote_files local_file with
  | some st => md5sum != st.md5
  | none => true

/-- Remote-store effects issued by the upload loop: an upload_with_checksum
invocation (which C1 refines into the per-backend call sequence), or a remote
deletion.  The source never deletes remote files (the stale-file cleanup is an
explicit TODO at line 191), so deleteRemote is never emitted; it is present so
that this absence is a provable statement. -/
inductive UpAction where
  | transfer (local_path remote_path md5sum : String)
  | deleteRemote (remote_path : String)
deriving DecidableEq

/-- Reporter state threaded through the orchestrator loops: the shared report
counter and the index of the next RPC outcome to consume from the oracle. -/
structure UpLoopState where
  counter : Int
  rpcIdx : Nat
deriving DecidableEq

structure UpLoopResult where
  state : UpLoopState
  manifest : List String
  actions : List UpAction
  status : LStatus
deriving DecidableEq

/-- Embedding of the per-file loop of SnapshotLoader::upload (lines 172-207)
for one src/dest pair.  Oracles: rpc gives the outcome of the n-th reporter
RPC, md5sum the hash of a local file by full path (none = hashing error),
transferOk whether an upload_with_checksum invocation succeeds.  The manifest
entry local_file ++ "." ++ md5 is collected before the transfer decision, so
it is recorded for skipped files as well. -/
def uploadFiles (rpc : Nat → Option TStatusCode) (md5sum : String → Option String)
    (transferOk : String → String → String → Bool)
    (remote_files : List (String × FileStat)) (src_path dest_path : String) :
    List String → UpLoopState → UpLoopResult
  | [], st => ⟨st, [], [], .ok⟩
  | local_file :: rest, st =>
    let r := report_every 10 st.counter (rpc st.rpcIdx)
    let st1 : UpLoopState := ⟨r.counter, st.rpcIdx + (if r.issued then 1 else 0)⟩
    if r.cancelled then ⟨st1, [], [], .cancelled⟩
    else
      match md5sum (src_path ++ "/" ++ local_file) with
      | none => ⟨st1, [], [], .ioError⟩
      | some m =>
        let entry := local_file ++ "." ++ m
        if need_upload remote_files local_file m then
          let lp := src_path ++ "/" ++ local_file
          let rp := dest_path ++ "/" ++ local_file
          if transferOk lp rp m then
            let res := uploadFiles rpc md5sum transferOk remote_files src_path
              dest_path rest st1
            ⟨res.state, entry :: res.manifest, .transfer lp rp m :: res.actions,
              res.status⟩
          else ⟨st1, [entry], [.transfer lp rp m], .ioError⟩
        else
          let res := uploadFiles rpc md5sum transferOk remote_files src_path
            dest_path rest st1
          ⟨res.state, entry :: res.manifest, res.actions, res.status⟩

/-- Environment of SnapshotLoader::upload and SnapshotLoader::download: the
oracles for every external effect the orchestrators perform. -/
structure UploadEnv where
  initialized : Bool
  rpc : Nat → Option TStatusCode
  md5sum : String → Option String
  transferOk : String → String → String → Bool
  remoteListing : String → Option (List (String × Nat))
  localListing : String → Option (List String)
  isDir : String → Bool

structure UploadResult where
  tablet_files : List (Int × List String)
  status : LStatus
deriving DecidableEq

/-- Embedding of SnapshotLoader::_check_local_snapshot_paths (lines 877-898):
every src (or dest, for download) path must be an existing directory. -/
def check_local_snapshot_paths (isDir : String → Bool)
    (src_to_dest : List (String × String)) (check_src : Bool) : Bool :=
  src_to_dest.all fun p => isDir (if check_src then p.1 else p.2)

/-- Per-pair loop of SnapshotLoader::upload (lines 146-213): parse the tablet
id from the src path, list remote and local files, run the per-file loop, and
record the manifest under the tablet id with std::map::emplace. -/
def uploadPairs (env : UploadEnv) :
    List (String × String) → UpLoopState → List (Int × List String) →
      UploadResult
  | [], _, acc => ⟨acc, .ok⟩
  | (src_path, dest_path) :: rest, st, acc =>
    match get_tablet_id_and_schema_hash_from_file_path src_path with
    | .error _ => ⟨acc, .internalError⟩
    | .ok (tablet_id, _) =>
      match env.remoteListing dest_path with
      | none => ⟨acc, .ioError⟩
      | some raw =>
        let remote_files := list_with_checksum raw
        match env.localListing src_path with
        | none => ⟨acc, .ioError⟩
        | some local_files =>
          let r := uploadFiles env.rpc env.md5sum env.transferOk remote_files
            src_path dest_path local_files st
          if r.status = .ok then
            uploadPairs env rest r.state (emplace acc tablet_id r.manifest)
          else ⟨acc, r.status⟩

/-- Embedding of SnapshotLoader::upload (lines 124-217): backend check,
unconditional cancellation probe (threshold 0, counter starting at 1), local
path validation, then the per-pair loop. -/
def upload (env : UploadEnv) (src_to_dest : List (String × String)) :
    UploadResult :=
  if !env.initialized then ⟨[], .internalError⟩
  else
    let probe := report_every 0 1 (env.rpc 0)
    if probe.cancelled then ⟨[], .cancelled⟩
    else if !check_local_snapshot_paths env.isDir src_to_dest true then
      ⟨[], .runtimeError⟩
    else uploadPairs env src_to_dest ⟨0, 1⟩ []

/-! ## Peer-pull (HTTP) diff predicate (lines 441-552) -/

/-- LocalFileStat of remote_http_download (lines 441-444). -/
structure HttpLocalFileStat where
  size : Nat
  md5 : String
deriving DecidableEq

/-- RemoteFileStat of remote_http_download (lines 473-477); md5 may be the
empty string when the peer does not declare one. -/
structure HttpRemoteFileStat where
  url : String
  md5 : String
  size : Nat
deriving DecidableEq

/-- Embedding of the per-file download decision of
SnapshotLoader::remote_http_download (lines 528-552): download when the file
is missing locally, or is a header file, or differs in size, or differs in
md5; otherwise skip. -/
def http_need_download (local_files : List (String × HttpLocalFileStat))
    (remote_file : String) (remote_filestat : HttpRemoteFileStat) : Bool :=
  match lookupA local_files remote_file with
  | none => true
  | some local_filestat =>
    if end_with remote_file ".hdr" then true
    else if local_filestat.size != remote_filestat.size then true
    else if local_filestat.md5 != remote_filestat.md5 then true
    else false

/-! ## Download orchestrator (lines 224-402) -/

/-- Effects issued by the download loop: a remote-fs download of a full remote
file to a full local path, or the pruning deletion of a stray local file. -/
inductive DlAction where
  | download (full_remote_file full_local_file : String)
  | removeLocal (full_local_file : String)
deriving DecidableEq

structure DownloadEnv where
  initialized : Bool
  rpc : Nat → Option TStatusCode
  md5sum : String → Option String
  downloadedMd5 : String → Option String
  downloadOk : String → String → Bool
  reachCapacityLimit : Nat → Bool
  tabletExists : Int → Bool
  remoteListing : String → Option (List (String × Nat))
  localListing : String → Option (List String)
  isDir : String → Bool

/-- Per-file download decision of SnapshotLoader::download (lines 291-320):
download when absent locally, or a header file, or the local md5 cannot be
computed or differs from the remote md5. -/
def dl_need_download (env : DownloadEnv) (local_path : String)
    (local_files : List String) (remote_file : String) (file_stat : FileStat) :
    Bool :=
  if local_files.contains remote_file then
    if end_with remote_file ".hdr" then true
    else
      match env.md5sum (local_path ++ "/" ++ remote_file) with
      | none => true
      | some local_md5sum => file_stat.md5 != local_md5sum
  else true

structure DlLoopResult where
  state : UpLoopState
  local_files : List String
  actions : List DlAction
  status : LStatus

/-- Embedding of the per-remote-file loop of SnapshotLoader::download (lines
287-368): decide, check capacity, rewrite the file name to the local tablet
id, download, verify the md5, and keep local_files updated (the remote name
is erased before the transfer and the rewritten name appended after it). -/
def downloadFilesLoop (env : DownloadEnv) (remote_path local_path : String)
    (local_tablet_id : Int) :
    List (String × FileStat) → List String → UpLoopState → DlLoopResult
  | [], local_files, st => ⟨st, local_files, [], .ok⟩
  | (remote_file, file_stat) :: rest, local_files, st =>
    let r := report_every 10 st.counter (env.rpc st.rpcIdx)
    let st1 : UpLoopState := ⟨r.counter, st.rpcIdx + (if r.issued then 1 else 0)⟩
    if r.cancelled then ⟨st1, local_files, [], .cancelled⟩
    else if !dl_need_download env local_path local_files remote_file file_stat then
      downloadFilesLoop env remote_path local_path local_tablet_id rest
        local_files st1
    else
      let full_remote_file :=
        remote_path ++ "/" ++ remote_file ++ "." ++ file_stat.md5
      match replace_tablet_id remote_file local_tablet_id with
      | .error _ => ⟨st1, local_files, [], .internalError⟩
      | .ok local_file_name =>
        let full_local_file := local_path ++ "/" ++ local_file_name
        if env.reachCapacityLimit file_stat.size then
          ⟨st1, local_files, [], .exceededLimit⟩
        else
          let locals1 := local_files.erase remote_file
          if !env.downloadOk full_remote_file full_local_file then
            ⟨st1, locals1, [.download full_remote_file full_local_file], .ioError⟩
          else
            match env.downloadedMd5 full_local_file with
            | none =>
              ⟨st1, locals1, [.download full_remote_file full_local_file], .ioError⟩
            | some downloaded_md5sum =>
              if downloaded_md5sum != file_stat.md5 then
                ⟨st1, locals1, [.download full_remote_file full_local_file],
                  .internalError⟩
              else
                let res := downloadFilesLoop env remote_path local_path
                  local_tablet_id rest (locals1 ++ [local_file_name]) st1
                ⟨res.state, res.local_files,
                  .download full_remote_file full_local_file :: res.actions,
                  res.status⟩

/-- Embedding of the pruning pass of SnapshotLoader::download (lines 370-395):
every surviving local file whose name, rewritten with the remote tablet id, is
absent from the remote map is unlinked (failures of the unlink itself are
logged and ignored, so only the attempt is recorded). -/
def prune_local_files (remote_files : List (String × FileStat))
    (remote_tablet_id : Int) (local_path : String)
    (local_files : List String) : List DlAction :=
  local_files.foldr
    (fun local_file acc =>
      match replace_tablet_id local_file remote_tablet_id with
      | .error _ => acc
      | .ok new_name =>
        match lookupA remote_files new_name with
        | some _ => acc
        | none => .removeLocal (local_path ++ "/" ++ local_file) :: acc)
    []

structure DlResult where
  downloaded_tablet_ids : List Int
  actions : List DlAction
  state : UpLoopState
  status : LStatus

/-- Per-pair body of SnapshotLoader::download (lines 245-398).  The local
tablet id is appended to downloaded_tablet_ids directly after the local path
parse (line 256), before the remote path parse, the listings, the emptiness
check, the tablet lookup and any transfer. -/
def downloadPair (env : DownloadEnv) (remote_path local_path : String)
    (ids : List Int) (st : UpLoopState) : DlResult :=
  match get_tablet_id_and_schema_hash_from_file_path local_path with
  | .error _ => ⟨ids, [], st, .internalError⟩
  | .ok (local_tablet_id, _) =>
    let ids1 := ids ++ [local_tablet_id]
    match get_tablet_id_from_remote_path remote_path with
    | .error _ => ⟨ids1, [], st, .internalError⟩
    | .ok remote_tablet_id =>
      match env.localListing local_path with
      | none => ⟨ids1, [], st, .ioError⟩
      | some local_files =>
        match env.remoteListing remote_path with
        | none => ⟨ids1, [], st, .ioError⟩
        | some raw =>
          let remote_files := list_with_checksum raw
          if remote_files.isEmpty then ⟨ids1, [], st, .internalError⟩
          else if !env.tabletExists local_tablet_id then
            ⟨ids1, [], st, .internalError⟩
          else
            let res := downloadFilesLoop env remote_path local_path
              local_tablet_id remote_files local_files st
            if res.status = .ok then
              ⟨ids1,
                res.actions ++ prune_local_files remote_files remote_tablet_id
                  local_path res.local_files,
                res.state, .ok⟩
            else ⟨ids1, res.actions, res.state, res.status⟩

/-- Fold of downloadPair over the src-to-dest pairs (lines 245-398): on a pair
error the accumulated ids and actions are returned with that error. -/
def downloadGo (env : DownloadEnv) :
    List (String × String) → UpLoopState → List Int → List DlAction → DlResult
  | [], st, ids, acts => ⟨ids, acts, st, .ok⟩
  | (remote_path, local_path) :: rest, st, ids, acts =>
    let r := downloadPair env remote_path local_path ids st
    if r.status = .ok then
      downloadGo env rest r.state r.downloaded_tablet_ids (acts ++ r.actions)
    else ⟨r.downloaded_tablet_ids, acts ++ r.actions, r.state, r.status⟩

/-- Embedding of SnapshotLoader::download (lines 224-402): backend check,
unconditional cancellation probe, dest path validation, then the pair loop. -/
def download (env : DownloadEnv) (src_to_dest : List (String × String)) :
    DlResult :=
  if !env.initialized then ⟨[], [], ⟨0, 0⟩, .internalError⟩
  else
    let probe := report_every 0 1 (env.rpc 0)
    if probe.cancelled then ⟨[], [], ⟨0, 1⟩, .cancelled⟩
    else if !check_local_snapshot_paths env.isDir src_to_dest false then
      ⟨[], [], ⟨0, 1⟩, .runtimeError⟩
    else downloadGo env src_to_dest ⟨0, 1⟩ [] []

/-! ## Atomic move (lines 701-844) -/

/-- Outcome of the six std::try_to_lock acquisitions in move (lines 772-777). -/
structure TabletLocks where
  migration : Bool
  base_compaction : Bool
  cumulative_compaction : Bool
  cold_compaction : Bool
  build_inverted_index : Bool
  meta_store : Bool
deriving DecidableEq

/-- The owns_lock conjunction of lines 778-780. -/
def ownsAllLocks (l : TabletLocks) : Bool :=
  l.migration && l.base_compaction && l.cumulative_compaction &&
    l.cold_compaction && l.build_inverted_index && l.meta_store

structure TabletInfo where
  tablet_path : String
  data_dir_path : String
deriving DecidableEq

/-- Effects issued by move, in program order. -/
inductive MoveAction where
  | convertRowsetIds (snapshot_path : String)
  | removeAllDir (dir : String)
  | createDir (dir : String)
  | linkFile (src dest : String)
  | removeFile (path : String)
  | loadTabletFromDir (tablet_path : String)
deriving DecidableEq

structure MoveEnv where
  storeExists : String → Bool
  pathExists : String → Bool
  convertRowsetIdsOk : Bool
  tryLocks : TabletLocks
  snapshotFiles : Option (List String)
  removeCreateOk : Bool
  linkOk : String → String → Bool
  loadTabletOk : Bool

/-- Embedding of the hardlink loop of move (lines 811-828): on a link failure
the links created so far in this attempt are removed and the loop fails. -/
def linkFilesLoop (linkOk : String → String → Bool)
    (snapshot_path tablet_path : String) :
    List String → List String → List MoveAction × Bool
  | [], _ => ([], true)
  | file :: rest, linked_files =>
    let full_src_path := snapshot_path ++ "/" ++ file
    let full_dest_path := tablet_path ++ "/" ++ file
    if linkOk full_src_path full_dest_path then
      let r := linkFilesLoop linkOk snapshot_path tablet_path rest
        (linked_files ++ [full_dest_path])
      (.linkFile full_src_path full_dest_path :: r.1, r.2)
    else
      (linked_files.map .removeFile, false)

/-- Embedding of SnapshotLoader::move (lines 701-844): path validation, the
rowset-id conversion, the overwrite check, the six non-blocking tablet locks,
then directory replacement, hardlinking and the tablet reload.  Effects are
returned as a trace in program order together with the final status. -/
def move (env : MoveEnv) (snapshot_path : String) (tablet : TabletInfo)
    (overwrite : Bool) : List MoveAction × LStatus :=
  let tablet_path := tablet.tablet_path
  let store_path := tablet.data_dir_path
  match get_tablet_id_and_schema_hash_from_file_path snapshot_path with
  | .error _ => ([], .internalError)
  | .ok (snapshot_tablet_id, snapshot_schema_hash) =>
    match get_tablet_id_and_schema_hash_from_file_path tablet_path with
    | .error _ => ([], .internalError)
    | .ok (tablet_id, schema_hash) =>
      if tablet_id != snapshot_tablet_id || schema_hash != snapshot_schema_hash
      then ([], .internalError)
      else if !env.storeExists store_path then ([], .internalError)
      else if !env.pathExists tablet_path then ([], .internalError)
      else if !env.pathExists snapshot_path then ([], .internalError)
      else
        let convertAct := MoveAction.convertRowsetIds snapshot_path
        if !env.convertRowsetIdsOk then ([convertAct], .internalError)
        else if !overwrite then ([convertAct], .fatalError)
        else if !ownsAllLocks env.tryLocks then ([convertAct], .obtainLockFailed)
        else
          match env.snapshotFiles with
          | none => ([convertAct], .ioError)
          | some snapshot_files =>
            if !env.removeCreateOk then
              ([convertAct, .removeAllDir tablet_path], .internalError)
            else
              let pre := [convertAct, .removeAllDir tablet_path,
                .createDir tablet_path]
              let lres := linkFilesLoop env.linkOk snapshot_path tablet_path
                snapshot_files []
              if !lres.2 then (pre ++ lres.1, .internalError)
              else
                let acts := pre ++ lres.1 ++ [.loadTabletFromDir tablet_path]
                if env.loadTabletOk then (acts, .ok) else (acts, .internalError)

/-! ## Statement-level helpers -/

/-- Whether the remote map has an entry under this (stripped) name whose md5
equals the given one: the skip condition of claim C2. -/
def remoteHasMatch (remote_files : List (String × FileStat))
    (local_file md5sum : String) : Bool :=
  match lookupA remote_files local_file with
  | some st => st.md5 == md5sum
  | none => false

/-- No remote deletion occurs in an upload action trace. -/
def noRemoteDeletes (acts : List UpAction) : Bool :=
  acts.all fun a =>
    match a with
    | .deleteRemote _ => false
    | _ => true

/-- Whether a move effect writes inside the live tablet directory. -/
def mutatesTabletDir : MoveAction → Bool
  | .removeAllDir _ => true
  | .createDir _ => true
  | .linkFile _ _ => true
  | .removeFile _ => true
  | .convertRowsetIds _ => false
  | .loadTabletFromDir _ => false

/-- Modelled from the spec: the snapshot manager's convert_rowset_ids (called
at line 755, implemented outside src/) performs the rowset-id rewrite the
spec describes in section 4.9 — it renames the rowset ids and tablet id info
in the rowset meta stored in the snapshot directory (source comment at line
754), so it writes inside the snapshot directory.  No other move effect
touches the snapshot directory. -/
def mutatesSnapshotDir : MoveAction → Bool
  | .convertRowsetIds _ => true
  | _ => false

/-- The md5 value used in a successful run: the oracle output with "" as the
never-used fallback. -/
def md5OrDefault (md5sum : String → Option String) (path : String) : String :=
  (md5sum path).getD ""

/-- The tablet id the path codec extracts from a src path, with 0 as the
never-used fallback for paths that do not parse. -/
def tabletIdOfPath (src_path : String) : Int :=
  match get_tablet_id_and_schema_hash_from_file_path src_path with
  | .ok (tablet_id, _) => tablet_id
  | .error _ => 0

/-! ## Concrete fixtures used by witness and counterexample theorems -/

/-- A remote map with one checksummed entry, for the C2 witness. -/
def remoteFixture : List (String × FileStat) := [("a.dat", ⟨"a.dat", "m1", 3⟩)]

/-- Fully-succeeding upload environment for the C9 witness. -/
def uploadEnvFixture : UploadEnv where
  initialized := true
  rpc := fun _ => some .OK
  md5sum := fun _ => some "m2"
  transferOk := fun _ _ _ => true
  remoteListing := fun _ => some [("a.dat.m1", 3)]
  localListing := fun _ => some ["a.dat", "b.dat"]
  isDir := fun _ => true

/-- Download environment whose remote listing only contains a file name
without a checksum suffix, so the checksummed map comes out empty; for the
C10 witness. -/
def downloadEnvFixture : DownloadEnv where
  initialized := true
  rpc := fun _ => some .OK
  md5sum := fun _ => some "m2"
  downloadedMd5 := fun _ => some "m2"
  downloadOk := fun _ _ => true
  reachCapacityLimit := fun _ => false
  tabletExists := fun _ => true
  remoteListing := fun _ => some [("noDotName", 3)]
  localListing := fun _ => some []
  isDir := fun _ => true

/-- Move environment in which the migration try-lock is unavailable and every
other step would succeed; for the C4 counterexample and witness. -/
def moveEnvFixture : MoveEnv where
  storeExists := fun _ => true
  pathExists := fun _ => true
  convertRowsetIdsOk := true
  tryLocks := ⟨false, true, true, true, true, true⟩
  snapshotFiles := some ["10.hdr"]
  removeCreateOk := true
  linkOk := fun _ _ => true
  loadTabletOk := true

/-! ## Lemmas about end_with -/

theorem String.toList_inj {a b : String} (h : a.toList = b.toList) : a = b := by
  cases a; cases b
  simp only [String.toList] at h
  exact congrArg String.mk h

theorem end_with_suffix {s m : String} (h : end_with s m = true) :
    s.toList.drop (s.toList.length - m.toList.length) = m.toList := by
  unfold end_with at h
  rw [Bool.and_eq_true] at h
  exact eq_of_beq h.2

/-- Two suffix tests of the same length cannot both succeed for different
suffixes. -/
theorem end_with_unique {s m1 m2 : String} (h1 : end_with s m1 = true)
    (h2 : end_with s m2 = true)
    (hlen : m1.toList.length = m2.toList.length) : m1 = m2 := by
  apply String.toList_inj
  have e1 := end_with_suffix h1
  have e2 := end_with_suffix h2
  rw [hlen] at e1
  exact e1 ▸ e2

theorem end_with_append (a m : String) : end_with (a ++ m) m = true := by
  have hdata : (a ++ m).toList = a.toList ++ m.toList := by
    cases a; cases m; rfl
  unfold end_with
  rw [hdata]
  simp

theorem toList_append (a b : String) : (a ++ b).toList = a.toList ++ b.toList := by
  cases a; cases b; rfl

theorem string_append_cancel_left {a b c : String} (h : a ++ b = a ++ c) :
    b = c := by
  have h2 : (a ++ b).toList = (a ++ c).toList := congrArg String.toList h
  rw [toList_append, toList_append] at h2
  exact String.toList_inj (List.append_cancel_left h2)

theorem not_end_with_hdr_of_idx {f : String} (h : end_with f ".idx" = true) :
    end_with f ".hdr" = false := by
  cases hx : end_with f ".hdr"
  · rfl
  · have := end_with_unique hx h (by decide)
    exact absurd this (by decide)

theorem not_end_with_hdr_of_dat {f : String} (h : end_with f ".dat" = true) :
    end_with f ".hdr" = false := by
  cases hx : end_with f ".hdr"
  · rfl
  · have := end_with_unique hx h (by decide)
    exact absurd this (by decide)

/-! ## Behaviour of replace_tablet_id (shared lemmas) -/

theorem replace_tablet_id_hdr {f : String} (h : end_with f ".hdr" = true)
    (tablet_id : Int) :
    replace_tablet_id f tablet_id = .ok (toString tablet_id ++ ".hdr") := by
  simp [replace_tablet_id, h]

theorem replace_tablet_id_idx_dat {f : String}
    (h : end_with f ".idx" = true ∨ end_with f ".dat" = true) (tablet_id : Int) :
    replace_tablet_id f tablet_id = .ok f := by
  rcases h with h | h
  · simp [replace_tablet_id, not_end_with_hdr_of_idx h, h]
  · simp [replace_tablet_id, not_end_with_hdr_of_dat h, h]

theorem replace_tablet_id_other {f : String} (h1 : end_with f ".hdr" = false)
    (h2 : end_with f ".idx" = false) (h3 : end_with f ".dat" = false)
    (tablet_id : Int) : replace_tablet_id f tablet_id = .error () := by
  simp [replace_tablet_id, h1, h2, h3]

/-! ## Claim C7 -/

/-- C7: for every file name and every new tablet id, _replace_tablet_id
returns "<new_tablet_id>.hdr" when the name ends in ".hdr", returns the name
unchanged when it ends in ".idx" or ".dat", and fails with the invalid-name
error for any other name. -/
theorem c7_replace_tablet_id_cases (file_name : String) (tablet_id : Int) :
    (end_with file_name ".hdr" = true →
      replace_tablet_id file_name tablet_id =
        .ok (toString tablet_id ++ ".hdr")) ∧
    ((end_with file_name ".idx" = true ∨ end_with file_name ".dat" = true) →
      replace_tablet_id file_name tablet_id = .ok file_name) ∧
    (end_with file_name ".hdr" = false → end_with file_name ".idx" = false →
      end_with file_name ".dat" = false →
      replace_tablet_id file_name tablet_id = .error ()) :=
  ⟨fun h => replace_tablet_id_hdr h tablet_id,
   fun h => replace_tablet_id_idx_dat h tablet_id,
   fun h1 h2 h3 => replace_tablet_id_other h1 h2 h3 tablet_id⟩

/-- Witness for C7 at the three concrete name shapes of the source comment. -/
theorem c7_replace_tablet_id_cases_witness :
    replace_tablet_id "10007.hdr" 42 = .ok "42.hdr" ∧
    replace_tablet_id "10007_2_2_0_0.idx" 42 = .ok "10007_2_2_0_0.idx" ∧
    replace_tablet_id "10007.bad" 42 = .error () := by
  refine ⟨?_, ?_, ?_⟩
  · exact ((c7_replace_tablet_id_cases "10007.hdr" 42).1 (by decide)).trans (by rfl)
  · exact (c7_replace_tablet_id_cases "10007_2_2_0_0.idx" 42).2.1
      (Or.inl (by decide))
  · exact (c7_replace_tablet_id_cases "10007.bad" 42).2.2 (by decide) (by decide)
      (by decide)

/-! ## Claim C8 -/

/-- C8 counterexample: the round trip rewrite(rewrite(name, R to L), L to R)
is not the identity on every legal file name.  For the legal name "1.hdr"
with L = 2 and R = 3 the round trip produces "3.hdr", not "1.hdr". -/
theorem c8_counterexample :
    (replace_tablet_id "1.hdr" 2).bind (fun r => replace_tablet_id r 3) =
      .ok "3.hdr" ∧ ("3.hdr" : String) ≠ "1.hdr" := by
  exact ⟨rfl, by decide⟩

/-- C8 amended: the round trip is the identity on names ending in ".idx" or
".dat"; a name ending in ".hdr" is normalised to "<R>.hdr" by the round trip,
so on ".hdr" names the round trip is the identity exactly for the remote
header name itself. -/
theorem c8_roundtrip_amended (L R : Int) (name : String) :
    ((end_with name ".idx" = true ∨ end_with name ".dat" = true) →
      (replace_tablet_id name L).bind (fun r => replace_tablet_id r R) =
        .ok name) ∧
    (end_with name ".hdr" = true →
      (replace_tablet_id name L).bind (fun r => replace_tablet_id r R) =
        .ok (toString R ++ ".hdr")) := by
  constructor
  · intro h
    rw [replace_tablet_id_idx_dat h L]
    show replace_tablet_id name R = .ok name
    exact replace_tablet_id_idx_dat h R
  · intro h
    rw [replace_tablet_id_hdr h L]
    show replace_tablet_id (toString L ++ ".hdr") R = .ok (toString R ++ ".hdr")
    exact replace_tablet_id_hdr (end_with_append (toString L) ".hdr") R

/-- Witness for C8 amended at a ".dat" name and a ".hdr" name. -/
theorem c8_roundtrip_amended_witness :
    (replace_tablet_id "7_0_0.dat" 2).bind (fun r => replace_tablet_id r 3) =
      .ok "7_0_0.dat" ∧
    (replace_tablet_id "7.hdr" 2).bind (fun r => replace_tablet_id r 3) =
      .ok "3.hdr" := by
  constructor
  · exact (c8_roundtrip_amended 2 3 "7_0_0.dat").1 (Or.inr (by decide))
  · exact ((c8_roundtrip_amended 2 3 "7.hdr").2 (by decide)).trans (by rfl)

/-! ## Claim C1 -/

/-- C1: upload_with_checksum uploads to "<remote>.part" and then renames to
"<remote>.<md5>" for the distributed-fs (HDFS) and broker kinds, uploads
directly to "<remote>.<md5>" for the object-store (S3) kind, and for any
other kind raises the fatal unknown-type error without attempting any
filesystem call. -/
theorem c1_upload_with_checksum_protocol (fs_type : FileSystemType)
    (local_path remote_path checksum : String)
    (uploadOk renameOk : String → String → Bool) :
    ((fs_type = .HDFS ∨ fs_type = .BROKER) →
      upload_with_checksum fs_type local_path remote_path checksum
          (fun _ _ => true) (fun _ _ => true) =
        ([.upload local_path (remote_path ++ ".part"),
          .rename (remote_path ++ ".part") (remote_path ++ "." ++ checksum)],
         .ok)) ∧
    (upload_with_checksum .S3 local_path remote_path checksum
        (fun _ _ => true) (fun _ _ => true) =
      ([.upload local_path (remote_path ++ "." ++ checksum)], .ok)) ∧
    (upload_with_checksum .LOCAL local_path remote_path checksum
        uploadOk renameOk = ([], .fatalError)) := by
  refine ⟨fun h => ?_, rfl, rfl⟩
  rcases h with h | h <;> subst h <;> rfl

/-- Witness for C1 at the HDFS kind with concrete paths. -/
theorem c1_upload_with_checksum_protocol_witness :
    upload_with_checksum .HDFS "/snap/10/20/f.dat" "/up/f.dat" "ab12"
        (fun _ _ => true) (fun _ _ => true) =
      ([.upload "/snap/10/20/f.dat" "/up/f.dat.part",
        .rename "/up/f.dat.part" "/up/f.dat.ab12"], .ok) :=
  ((c1_upload_with_checksum_protocol .HDFS "/snap/10/20/f.dat" "/up/f.dat"
      "ab12" (fun _ _ => true) (fun _ _ => true)).1 (Or.inl rfl)).trans (by rfl)

/-! ## Claim C5 -/

/-- C5: _report_every produces the cancellation result exactly when the
reporter RPC was issued, completed at the transport level, and returned the
CANCELLED status code; a transport failure and every other returned status
code yield OK. -/
theorem c5_report_every_cancel_iff (report_threshold counter : Int)
    (rpcResult : Option TStatusCode) :
    (report_every report_threshold counter rpcResult).cancelled = true ↔
      ((report_every report_threshold counter rpcResult).issued = true ∧
        rpcResult = some TStatusCode.CANCELLED) := by
  unfold report_every
  by_cases h : counter + 1 ≤ report_threshold
  · simp [h]
  · cases rpcResult with
    | none => simp [h]
    | some code => simp [h, decide_eq_true_eq]

/-! ## Claim C3 -/

/-- C3 counterexample: a non-header remote file that exists locally with the
same size but whose remote-declared md5 is empty is NOT skipped by
remote_http_download — the decision still compares the local md5 with the
empty remote md5 and schedules a download. -/
theorem c3_counterexample :
    http_need_download [("1_0_0.dat", ⟨10, "abcd"⟩)] "1_0_0.dat"
        ⟨"u", "", 10⟩ = true ∧
    (HttpRemoteFileStat.mk "u" "" 10).md5 = "" ∧
    (HttpLocalFileStat.mk 10 "abcd").size = (HttpRemoteFileStat.mk "u" "" 10).size ∧
    end_with "1_0_0.dat" ".hdr" = false := by
  exact ⟨by decide, rfl, rfl, by decide⟩

/-- C3 amended: for a non-".hdr" remote file that exists locally and whose
remote-declared md5 is empty, the decision still compares both size and md5:
the file is skipped iff its local size equals the remote-declared size AND
its local md5 is also empty; a non-empty local md5 forces a download even
when the sizes match. -/
theorem c3_empty_md5_amended (local_files : List (String × HttpLocalFileStat))
    (local_filestat : HttpLocalFileStat) (remote_file : String)
    (remote_filestat : HttpRemoteFileStat)
    (hfind : lookupA local_files remote_file = some local_filestat)
    (hhdr : end_with remote_file ".hdr" = false)
    (hmd5 : remote_filestat.md5 = "") :
    http_need_download local_files remote_file remote_filestat = false ↔
      (local_filestat.size = remote_filestat.size ∧
        local_filestat.md5 = "") := by
  unfold http_need_download
  rw [hfind, hhdr]
  simp only [Bool.false_eq_true, if_false]
  by_cases hsize : local_filestat.size = remote_filestat.size
  · by_cases hm : local_filestat.md5 = remote_filestat.md5
    · simp [hsize, hm, hmd5, bne]
    · simp [hsize, hm, bne]
      intro hx
      exact absurd (hx.trans hmd5.symm) hm
  · simp [bne, hsize]

/-- Witness for C3 amended: with an empty local md5 and matching sizes the
file is skipped. -/
theorem c3_empty_md5_amended_witness :
    (http_need_download [("1_0_0.dat", ⟨10, ""⟩)] "1_0_0.dat"
        ⟨"u", "", 10⟩ = false ↔
      ((HttpLocalFileStat.mk 10 "").size = (HttpRemoteFileStat.mk "u" "" 10).size ∧
        (HttpLocalFileStat.mk 10 "").md5 = "")) :=
  c3_empty_md5_amended [("1_0_0.dat", ⟨10, ""⟩)] ⟨10, ""⟩ "1_0_0.dat"
    ⟨"u", "", 10⟩ (by decide) (by decide) rfl

/-! ## Lemmas about findLastOf and findLastOfLe -/

theorem findLastOf_eq_none {s : List Char} {c : Char} :
    findLastOf s c = none ↔ c ∉ s := by
  induction s with
  | nil => simp [findLastOf]
  | cons x xs ih =>
    cases h : findLastOf xs c with
    | some i =>
      have hc : c ∈ xs := by
        by_contra hn
        simp [ih.mpr hn] at h
      simp [findLastOf, h, hc]
    | none =>
      have hn : c ∉ xs := ih.mp h
      by_cases hx : x = c
      · simp [findLastOf, h, hx]
      · simp [findLastOf, h, hx, hn]
        exact fun hcx => hx hcx.symm

theorem findLastOf_get {s : List Char} {c : Char} {p : Nat}
    (h : findLastOf s c = some p) : s.get? p = some c := by
  induction s generalizing p with
  | nil => simp [findLastOf] at h
  | cons x xs ih =>
    simp only [findLastOf] at h
    cases hx : findLastOf xs c with
    | some i =>
      rw [hx] at h
      simp only [Option.some.injEq] at h
      subst h
      simpa using ih hx
    | none =>
      rw [hx] at h
      by_cases hc : x = c
      · rw [if_pos hc] at h
        injection h with h
        subst h
        simp [hc]
      · simp [hc] at h

theorem findLastOf_max {s : List Char} {c : Char} {p : Nat}
    (h : findLastOf s c = some p) :
    ∀ q, s.get? q = some c → q ≤ p := by
  induction s generalizing p with
  | nil => intro q hq; simp at hq
  | cons x xs ih =>
    intro q hq
    simp only [findLastOf] at h
    cases hx : findLastOf xs c with
    | some i =>
      rw [hx] at h
      simp only [Option.some.injEq] at h
      cases q with
      | zero => omega
      | succ j =>
        have hj : xs.get? j = some c := by simpa using hq
        have := ih hx j hj
        omega
    | none =>
      rw [hx] at h
      by_cases hc : x = c
      · rw [if_pos hc] at h
        injection h with h
        cases q with
        | zero => omega
        | succ j =>
          exfalso
          have hj : xs.get? j = some c := by simpa using hq
          exact (findLastOf_eq_none.mp hx) (List.get?_mem hj)
      · simp [hc] at h

theorem findLastOfLe_eq_none {s : List Char} {c : Char} {b : Nat} :
    findLastOfLe s c b = none ↔ c ∉ s.take (b + 1) := by
  induction s generalizing b with
  | nil => simp [findLastOfLe]
  | cons x xs ih =>
    cases b with
    | zero =>
      by_cases hx : x = c
      · simp [findLastOfLe, hx]
      · simp [findLastOfLe, hx]
        exact fun hcx => hx hcx.symm
    | succ b2 =>
      cases hx : findLastOfLe xs c b2 with
      | some i =>
        have hc : c ∈ xs.take (b2 + 1) := by
          by_contra hn
          simp [ih.mpr hn] at hx
        simp [findLastOfLe, hx, hc]
      | none =>
        have hn : c ∉ xs.take (b2 + 1) := ih.mp hx
        by_cases hxc : x = c
        · simp [findLastOfLe, hx, hxc]
        · simp [findLastOfLe, hx, hxc, hn]
          exact fun hcx => hxc hcx.symm

theorem mem_take_of_get? {s : List Char} {c : Char} {q b : Nat}
    (h : s.get? q = some c) (hqb : q < b) : c ∈ s.take b :=
  List.get?_mem (by rw [List.get?_take hqb]; exact h)

theorem count_of_findLastOf {s : List Char} {c : Char} {p : Nat}
    (h : findLastOf s c = some p) :
    s.count c = (s.take p).count c + 1 := by
  have hget : s.get? p = some c := findLastOf_get h
  have hex := List.get?_eq_some.mp hget
  obtain ⟨hlt, hgetv⟩ := hex
  have hdrop : s.drop p = c :: s.drop (p + 1) := by
    rw [List.drop_eq_get_cons hlt, hgetv]
  have hnot : c ∉ s.drop (p + 1) := by
    intro hmem
    obtain ⟨q, hq⟩ := List.mem_iff_get?.mp hmem
    rw [List.get?_drop] at hq
    have := findLastOf_max h _ hq
    omega
  conv_lhs => rw [← List.take_append_drop p s]
  rw [List.count_append, hdrop, List.count_cons_self,
    List.count_eq_zero.mpr hnot]

/-! ## Claim C6 -/

/-- C6 counterexample: the path "a/b/c" has non-numeric final segments, yet
the extraction succeeds, returning tablet id 0 and schema hash 0: the
stringstream extractions are never checked, so non-numeric segments silently
store 0 instead of producing a path-parse error. -/
theorem c6_counterexample :
    get_tablet_id_and_schema_hash_from_file_path "a/b/c" = .ok (0, 0) := by
  rfl

/-- C6 amended: the extraction fails with a path-parse error exactly when the
path has no '/' at all, or ends with '/', or its only '/' is not the first
character (size_t wraparound makes a single leading '/' acceptable: the
second search then re-finds position 0).  Segments are never validated as
numbers: on every other path the extraction succeeds, reading each of the
last two components with C++ stream semantics, which silently store 0 for a
non-numeric component. -/
theorem c6_parse_error_characterization (src_path : String) :
    (get_tablet_id_and_schema_hash_from_file_path src_path = .error ()) ↔
      (src_path.toList.count '/' = 0 ∨
        src_path.toList.getLast? = some '/' ∨
        (src_path.toList.count '/' = 1 ∧
          src_path.toList.head? ≠ some '/')) := by
  unfold get_tablet_id_and_schema_hash_from_file_path
  set s := src_path.toList with hs
  cases hp : findLastOf s '/' with
  | none =>
    have hmem : '/' ∉ s := findLastOf_eq_none.mp hp
    simp [hp, List.count_eq_zero.mpr hmem]
  | some pos =>
    have hget : s.get? pos = some '/' := findLastOf_get hp
    have hmem : '/' ∈ s := List.get?_mem hget
    have hpos_lt : pos < s.length := (List.get?_eq_some.mp hget).1
    have hcnt_succ : s.count '/' = (s.take pos).count '/' + 1 :=
      count_of_findLastOf hp
    by_cases hlast : pos = s.length - 1
    · have hgl : s.getLast? = some '/' := by
        rw [List.getLast?_eq_get?, ← hlast]; exact hget
      simp [hp, hlast, hgl]
    · have hgl : s.getLast? ≠ some '/' := by
        intro hg
        rw [List.getLast?_eq_get?] at hg
        have h1 := findLastOf_max hp (s.length - 1) hg
        omega
      by_cases hpz : pos = 0
      · subst hpz
        have hhd : s.head? = some '/' := by rw [← List.get?_zero]; exact hget
        have hne : findLastOfLe s '/' 0 ≠ none := fun hn =>
          (findLastOfLe_eq_none.mp hn) (mem_take_of_get? hget (by omega))
        cases hq : findLastOfLe s '/' (0 - 1) with
        | none => exact absurd hq hne
        | some p2 =>
          have hcnt0 : s.count '/' ≠ 0 := by omega
          simp [hp, hlast, hq, hcnt0, hgl, hhd]
      · have hsub : pos - 1 + 1 = pos := by omega
        cases hq : findLastOfLe s '/' (pos - 1) with
        | none =>
          have hnotin : '/' ∉ s.take pos := by
            have := findLastOfLe_eq_none.mp hq
            rwa [hsub] at this
          have hhd : s.head? ≠ some '/' := by
            intro hh
            have h0 : s.get? 0 = some '/' := by rw [List.get?_zero]; exact hh
            exact hnotin (mem_take_of_get? h0 (by omega))
          have hcnt : s.count '/' = 1 := by
            rw [hcnt_succ, List.count_eq_zero.mpr hnotin]
          simp [hp, hlast, hq, hcnt, hgl, hhd]
        | some p2 =>
          have hin : '/' ∈ s.take pos := by
            by_contra hn
            have hnone : findLastOfLe s '/' (pos - 1) = none := by
              rw [findLastOfLe_eq_none, hsub]; exact hn
            rw [hnone] at hq; cases hq
          have htc : (s.take pos).count '/' ≠ 0 := by
            intro h0
            exact (List.count_eq_zero.mp h0) hin
          have hcnt1 : s.count '/' ≠ 1 := by omega
          have hcnt0 : s.count '/' ≠ 0 := by omega
          simp [hp, hlast, hq, hcnt1, hcnt0, hgl]

/-! ## Upload loop characterization (shared by C2 and C9) -/

theorem need_upload_eq_not_match (remote_files : List (String × FileStat))
    (f m : String) :
    need_upload remote_files f m = !remoteHasMatch remote_files f m := by
  unfold need_upload remoteHasMatch
  cases lookupA remote_files f with
  | none => rfl
  | some st =>
    by_cases h : m = st.md5
    · subst h; simp
    · have h2 : ¬(st.md5 = m) := fun he => h he.symm
      simp [bne, h, h2]

/-- On a successful run the upload loop records every local file in the
manifest (with its md5 suffix) and performs exactly the transfers selected by
need_upload. -/
theorem uploadFiles_ok_spec (rpc : Nat → Option TStatusCode)
    (md5sum : String → Option String)
    (transferOk : String → String → String → Bool)
    (remote_files : List (String × FileStat)) (src_path dest_path : String) :
    ∀ (locals : List String) (st : UpLoopState),
      (uploadFiles rpc md5sum transferOk remote_files src_path dest_path locals
        st).status = .ok →
      (uploadFiles rpc md5sum transferOk remote_files src_path dest_path locals
          st).manifest =
        locals.map (fun f =>
          f ++ "." ++ md5OrDefault md5sum (src_path ++ "/" ++ f)) ∧
      (uploadFiles rpc md5sum transferOk remote_files src_path dest_path locals
          st).actions =
        (locals.filter fun f =>
          need_upload remote_files f
            (md5OrDefault md5sum (src_path ++ "/" ++ f))).map
          (fun f =>
            .transfer (src_path ++ "/" ++ f) (dest_path ++ "/" ++ f)
              (md5OrDefault md5sum (src_path ++ "/" ++ f))) := by
  intro locals
  induction locals with
  | nil => intro st h; simp [uploadFiles]
  | cons f fs ih =>
    intro st h
    simp only [uploadFiles] at h ⊢
    by_cases hc : (report_every 10 st.counter (rpc st.rpcIdx)).cancelled = true
    · rw [if_pos hc] at h
      simp at h
    · rw [if_neg hc] at h ⊢
      cases hm : md5sum (src_path ++ "/" ++ f) with
      | none => simp [hm] at h
      | some m =>
        rw [hm] at h
        dsimp only at h ⊢
        have hmd : md5OrDefault md5sum (src_path ++ "/" ++ f) = m := by
          simp [md5OrDefault, hm]
        by_cases hn : need_upload remote_files f m = true
        · rw [if_pos hn] at h ⊢
          by_cases ht : transferOk (src_path ++ "/" ++ f)
              (dest_path ++ "/" ++ f) m = true
          · rw [if_pos ht] at h ⊢
            simp only [] at h
            obtain ⟨ihm, iha⟩ := ih _ h
            simp only [List.map_cons, List.filter_cons, hmd, hn, if_pos]
            constructor
            · simp [ihm]
            · simp [iha]
          · rw [if_neg ht] at h
            simp at h
        · rw [if_neg hn] at h ⊢
          simp only [] at h
          obtain ⟨ihm, iha⟩ := ih _ h
          simp only [List.map_cons, List.filter_cons, hmd, hn]
          constructor
          · simp [ihm]
          · simp [iha]

/-! ## Claim C2 -/

/-- C2: on a successful upload loop run, a local file is transferred iff the
remote listing does NOT contain an entry with the same stripped name and the
same md5 as the locally computed md5 (equivalently, it is skipped iff such an
entry exists), and no remote deletion is ever performed, so a stale remote
object with a mismatched md5 is left behind. -/
theorem c2_upload_skip_iff (rpc : Nat → Option TStatusCode)
    (md5sum : String → Option String)
    (transferOk : String → String → String → Bool)
    (remote_files : List (String × FileStat)) (src_path dest_path : String)
    (locals : List String) (st : UpLoopState) (f m : String)
    (hok : (uploadFiles rpc md5sum transferOk remote_files src_path dest_path
      locals st).status = .ok)
    (hf : f ∈ locals) (hm : md5sum (src_path ++ "/" ++ f) = some m) :
    (UpAction.transfer (src_path ++ "/" ++ f) (dest_path ++ "/" ++ f) m ∈
        (uploadFiles rpc md5sum transferOk remote_files src_path dest_path
          locals st).actions ↔
      remoteHasMatch remote_files f m = false) ∧
    noRemoteDeletes
      (uploadFiles rpc md5sum transferOk remote_files src_path dest_path
        locals st).actions = true := by
  obtain ⟨hman, hact⟩ := uploadFiles_ok_spec rpc md5sum transferOk remote_files
    src_path dest_path locals st hok
  have hmd : md5OrDefault md5sum (src_path ++ "/" ++ f) = m := by
    simp [md5OrDefault, hm]
  constructor
  · rw [hact]
    constructor
    · intro hmem
      rw [List.mem_map] at hmem
      obtain ⟨g, hg, hgeq⟩ := hmem
      rw [List.mem_filter] at hg
      obtain ⟨hgl, hgneed⟩ := hg
      injection hgeq with h1 h2 h3
      have hfg : g = f := string_append_cancel_left h1
      subst hfg
      rw [hmd] at hgneed
      rw [need_upload_eq_not_match] at hgneed
      simpa using hgneed
    · intro hnomatch
      rw [List.mem_map]
      refine ⟨f, ?_, by rw [hmd]⟩
      rw [List.mem_filter]
      refine ⟨hf, ?_⟩
      rw [hmd, need_upload_eq_not_match, hnomatch]
      rfl
  · rw [hact]
    unfold noRemoteDeletes
    rw [List.all_eq_true]
    intro a ha
    rw [List.mem_map] at ha
    obtain ⟨g, hg, rfl⟩ := ha
    rfl

/-- Witness for C2: local b.dat is absent remotely, a.dat is present but with
a different md5; both are transferred and nothing remote is deleted. -/
theorem c2_upload_skip_iff_witness :
    (UpAction.transfer ("src" ++ "/" ++ "b.dat") ("dst" ++ "/" ++ "b.dat") "m2"
        ∈ (uploadFiles (fun _ => some TStatusCode.OK) (fun _ => some "m2")
            (fun _ _ _ => true) remoteFixture "src" "dst"
            ["a.dat", "b.dat"] ⟨0, 1⟩).actions ↔
      remoteHasMatch remoteFixture "b.dat" "m2" = false) ∧
    noRemoteDeletes
      (uploadFiles (fun _ => some TStatusCode.OK) (fun _ => some "m2")
        (fun _ _ _ => true) remoteFixture "src" "dst"
        ["a.dat", "b.dat"] ⟨0, 1⟩).actions = true :=
  c2_upload_skip_iff (fun _ => some TStatusCode.OK) (fun _ => some "m2")
    (fun _ _ _ => true) remoteFixture "src" "dst" ["a.dat", "b.dat"] ⟨0, 1⟩
    "b.dat" "m2" (by decide) (by decide) rfl

/-! ## Claim C9 -/

/-- On a successful run, uploadPairs collects exactly the per-pair manifests
keyed by the parsed tablet ids, independently of the remote listings. -/
theorem uploadPairs_ok_spec (env : UploadEnv) :
    ∀ (pairs : List (String × String)) (st : UpLoopState)
      (acc : List (Int × List String)),
      (uploadPairs env pairs st acc).status = .ok →
      (uploadPairs env pairs st acc).tablet_files =
        pairs.foldl (fun a p =>
          emplace a (tabletIdOfPath p.1)
            (((env.localListing p.1).getD []).map
              (fun f => f ++ "." ++ md5OrDefault env.md5sum (p.1 ++ "/" ++ f))))
          acc := by
  intro pairs
  induction pairs with
  | nil => intro st acc h; simp [uploadPairs]
  | cons p rest ih =>
    intro st acc h
    obtain ⟨src_path, dest_path⟩ := p
    simp only [uploadPairs] at h ⊢
    cases hparse : get_tablet_id_and_schema_hash_from_file_path src_path with
    | error e => rw [hparse] at h; simp at h
    | ok tid_pair =>
      obtain ⟨tid, sh⟩ := tid_pair
      rw [hparse] at h
      dsimp only at h ⊢
      cases hrl : env.remoteListing dest_path with
      | none => rw [hrl] at h; simp at h
      | some raw =>
        rw [hrl] at h
        dsimp only at h ⊢
        cases hll : env.localListing src_path with
        | none => rw [hll] at h; simp at h
        | some locals =>
          rw [hll] at h
          dsimp only at h ⊢
          by_cases hst : (uploadFiles env.rpc env.md5sum env.transferOk
              (list_with_checksum raw) src_path dest_path locals st).status = .ok
          · rw [if_pos hst] at h ⊢
            rw [ih _ _ h, List.foldl_cons]
            have hman := (uploadFiles_ok_spec env.rpc env.md5sum env.transferOk
              (list_with_checksum raw) src_path dest_path locals st hst).1
            have htid : tabletIdOfPath src_path = tid := by
              simp [tabletIdOfPath, hparse]
            rw [hman, htid, hll]
            rfl
          · rw [if_neg hst] at h
            exact absurd h hst

/-- C9: the manifest returned by a successful upload maps each source
directory's parsed tablet id to the list of ALL files in that local
directory, each suffixed with "." and its local md5 — a right-hand side that
mentions only the local listing and local hashing, so the manifest does not
depend on the prior remote state or on which files were transferred. -/
theorem c9_upload_manifest_local_only (env : UploadEnv)
    (src_to_dest : List (String × String))
    (hok : (upload env src_to_dest).status = .ok) :
    (upload env src_to_dest).tablet_files =
      src_to_dest.foldl (fun a p =>
        emplace a (tabletIdOfPath p.1)
          (((env.localListing p.1).getD []).map
            (fun f => f ++ "." ++ md5OrDefault env.md5sum (p.1 ++ "/" ++ f))))
        [] := by
  unfold upload at hok ⊢
  by_cases hinit : env.initialized = true
  · simp only [hinit, Bool.not_true, Bool.false_eq_true, if_false] at hok ⊢
    by_cases hc : (report_every 0 1 (env.rpc 0)).cancelled = true
    · rw [if_pos hc] at hok; simp at hok
    · rw [if_neg hc] at hok ⊢
      by_cases hd : check_local_snapshot_paths env.isDir src_to_dest true = true
      · simp only [hd, Bool.not_true, Bool.false_eq_true, if_false] at hok ⊢
        exact uploadPairs_ok_spec env src_to_dest ⟨0, 1⟩ [] hok
      · simp only [Bool.not_eq_true] at hd
        simp [hd] at hok
  · simp only [Bool.not_eq_true] at hinit
    simp [hinit] at hok

/-- Witness for C9 on the fixture environment: the remote already has a.dat
with md5 m1, yet the manifest lists both local files with their local md5. -/
theorem c9_upload_manifest_local_only_witness :
    (upload uploadEnvFixture [("snap/101/202", "up/d")]).tablet_files =
      [("snap/101/202", "up/d")].foldl (fun a p =>
        emplace a (tabletIdOfPath p.1)
          (((uploadEnvFixture.localListing p.1).getD []).map
            (fun f => f ++ "." ++ md5OrDefault uploadEnvFixture.md5sum
              (p.1 ++ "/" ++ f)))) [] :=
  c9_upload_manifest_local_only uploadEnvFixture [("snap/101/202", "up/d")]
    (by decide)

/-! ## Claim C10 -/

/-- C10: once the local path of a pair parses, download has already appended
the pair's local tablet id to the output vector — whatever the environment
does afterwards (first conjunct, quantified over every environment, prior
vector and reporter state).  Consequently, when the remote listing of the
first pair produces an empty checksummed map, download returns the
empty-remote error with the tablet id already recorded and no file action
performed (remaining conjuncts). -/
theorem c10_download_ids_appended_early (env : DownloadEnv)
    (remote_path local_path : String) (tid sh : Int)
    (rest : List (String × String)) (rtid : Int) (raw : List (String × Nat))
    (locals : List String)
    (hparse : get_tablet_id_and_schema_hash_from_file_path local_path =
      .ok (tid, sh))
    (hinit : env.initialized = true)
    (hprobe : (report_every 0 1 (env.rpc 0)).cancelled = false)
    (hdirs : check_local_snapshot_paths env.isDir
      ((remote_path, local_path) :: rest) false = true)
    (hrparse : get_tablet_id_from_remote_path remote_path = .ok rtid)
    (hlocal : env.localListing local_path = some locals)
    (hremote : env.remoteListing remote_path = some raw)
    (hempty : list_with_checksum raw = []) :
    (∀ (env2 : DownloadEnv) (ids : List Int) (st : UpLoopState),
      (downloadPair env2 remote_path local_path ids st).downloaded_tablet_ids =
        ids ++ [tid]) ∧
    (download env ((remote_path, local_path) :: rest)).downloaded_tablet_ids =
      [tid] ∧
    (download env ((remote_path, local_path) :: rest)).actions = [] ∧
    (download env ((remote_path, local_path) :: rest)).status =
      .internalError := by
  have hpair : ∀ (env2 : DownloadEnv) (ids : List Int) (st : UpLoopState),
      (downloadPair env2 remote_path local_path ids st).downloaded_tablet_ids =
        ids ++ [tid] := by
    intro env2 ids st
    unfold downloadPair
    rw [hparse]
    dsimp only
    cases hr2 : get_tablet_id_from_remote_path remote_path with
    | error e => rfl
    | ok rtid2 =>
      dsimp only
      cases hl2 : env2.localListing local_path with
      | none => rfl
      | some locals2 =>
        dsimp only
        cases hrl2 : env2.remoteListing remote_path with
        | none => rfl
        | some raw2 =>
          dsimp only
          by_cases he2 : (list_with_checksum raw2).isEmpty = true
          · rw [if_pos he2]
          · rw [if_neg he2]
            by_cases ht2 : (!env2.tabletExists tid) = true
            · rw [if_pos ht2]
            · rw [if_neg ht2]
              split <;> rfl
  have hpairres : downloadPair env remote_path local_path [] ⟨0, 1⟩ =
      ⟨[tid], [], ⟨0, 1⟩, .internalError⟩ := by
    unfold downloadPair
    rw [hparse, hrparse, hlocal, hremote]
    dsimp only
    rw [hempty]
    rfl
  have hdl : download env ((remote_path, local_path) :: rest) =
      ⟨[tid], [], ⟨0, 1⟩, .internalError⟩ := by
    unfold download
    rw [hinit]
    dsimp only
    rw [hprobe]
    simp only [Bool.false_eq_true, if_false]
    rw [hdirs]
    simp only [Bool.not_true, Bool.false_eq_true, if_false]
    unfold downloadGo
    rw [hpairres]
    rfl
  exact ⟨hpair, by rw [hdl], by rw [hdl], by rw [hdl]⟩

/-- Witness for C10 on the fixture environment: remote path "r_7", local path
"s/5/9"; the remote listing holds only a name without a checksum suffix, so
the checksummed map is empty; tablet id 5 is still recorded. -/
theorem c10_download_ids_appended_early_witness :
    (downloadPair downloadEnvFixture "r_7" "s/5/9" [] ⟨0, 1⟩).downloaded_tablet_ids
      = [5] ∧
    (download downloadEnvFixture [("r_7", "s/5/9")]).downloaded_tablet_ids =
      [5] ∧
    (download downloadEnvFixture [("r_7", "s/5/9")]).status = .internalError := by
  have h := c10_download_ids_appended_early downloadEnvFixture "r_7" "s/5/9"
    5 9 [] 7 [("noDotName", 3)] [] (by rfl) rfl (by rfl) (by rfl) (by rfl)
    rfl rfl (by rfl)
  exact ⟨h.1 downloadEnvFixture [] ⟨0, 1⟩, h.2.1, h.2.2.2⟩

/-! ## Claim C4 -/

/-- C4 counterexample: with every precondition satisfied and one tablet
try-lock unavailable, move returns the retryable obtain-lock-failed status,
but its effect trace already contains the rowset-id conversion, which
rewrites rowset metadata inside the snapshot directory — so the snapshot
directory HAS been changed by the call when that error is returned,
contradicting the claim. -/
theorem c4_counterexample :
    (move moveEnvFixture "/snap/10/20" ⟨"/data/10/20", "/data"⟩ true).2 =
      .obtainLockFailed ∧
    ((move moveEnvFixture "/snap/10/20" ⟨"/data/10/20", "/data"⟩ true).1.any
      mutatesSnapshotDir) = true :=
  ⟨by decide, by decide⟩

/-- C4 amended: whenever move fails the non-blocking acquisition of any of
the six tablet-level locks it returns the retryable obtain-lock-failed error
with the live tablet directory untouched (no effect in the trace mutates it);
however the snapshot directory is not untouched: the trace at that point is
exactly the rowset-id conversion of the snapshot directory, which runs before
the locks are attempted. -/
theorem c4_lock_failure_partial (env : MoveEnv) (snapshot_path : String)
    (tablet : TabletInfo) (overwrite : Bool)
    (h : (move env snapshot_path tablet overwrite).2 = .obtainLockFailed) :
    (move env snapshot_path tablet overwrite).1 =
      [MoveAction.convertRowsetIds snapshot_path] ∧
    (move env snapshot_path tablet overwrite).1.all
      (fun a => !mutatesTabletDir a) = true := by
  unfold move at h ⊢
  cases hps : get_tablet_id_and_schema_hash_from_file_path snapshot_path with
  | error e => rw [hps] at h; simp at h
  | ok sp_pair =>
    obtain ⟨stid, shash⟩ := sp_pair
    rw [hps] at h
    dsimp only at h ⊢
    cases hpt : get_tablet_id_and_schema_hash_from_file_path
        tablet.tablet_path with
    | error e => rw [hpt] at h; simp at h
    | ok t_pair =>
      obtain ⟨tid, thash⟩ := t_pair
      rw [hpt] at h
      dsimp only at h ⊢
      by_cases hmm : (tid != stid || thash != shash) = true
      · rw [if_pos hmm] at h; simp at h
      · rw [if_neg hmm] at h ⊢
        by_cases hst : (!env.storeExists tablet.data_dir_path) = true
        · rw [if_pos hst] at h; simp at h
        · rw [if_neg hst] at h ⊢
          by_cases hpe : (!env.pathExists tablet.tablet_path) = true
          · rw [if_pos hpe] at h; simp at h
          · rw [if_neg hpe] at h ⊢
            by_cases hpe2 : (!env.pathExists snapshot_path) = true
            · rw [if_pos hpe2] at h; simp at h
            · rw [if_neg hpe2] at h ⊢
              by_cases hcv : (!env.convertRowsetIdsOk) = true
              · rw [if_pos hcv] at h; simp at h
              · rw [if_neg hcv] at h ⊢
                by_cases hov : (!overwrite) = true
                · rw [if_pos hov] at h; simp at h
                · rw [if_neg hov] at h ⊢
                  by_cases hlk : (!ownsAllLocks env.tryLocks) = true
                  · rw [if_pos hlk]
                    exact ⟨rfl, rfl⟩
                  · rw [if_neg hlk] at h
                    exfalso
                    cases hsf : env.snapshotFiles with
                    | none => rw [hsf] at h; simp at h
                    | some snapshot_files =>
                      rw [hsf] at h
                      dsimp only at h
                      by_cases hrc : (!env.removeCreateOk) = true
                      · rw [if_pos hrc] at h; simp at h
                      · rw [if_neg hrc] at h
                        by_cases hlf : (!(linkFilesLoop env.linkOk snapshot_path
                            tablet.tablet_path snapshot_files []).2) = true
                        · rw [if_pos hlf] at h; simp at h
                        · rw [if_neg hlf] at h
                          by_cases hld : env.loadTabletOk = true
                          · rw [if_pos hld] at h; simp at h
                          · rw [if_neg hld] at h; simp at h

/-- Witness for C4 amended on the fixture environment. -/
theorem c4_lock_failure_partial_witness :
    (move moveEnvFixture "/snap/10/20" ⟨"/data/10/20", "/data"⟩ true).1 =
      [MoveAction.convertRowsetIds "/snap/10/20"] ∧
    (move moveEnvFixture "/snap/10/20" ⟨"/data/10/20", "/data"⟩ true).1.all
      (fun a => !mutatesTabletDir a) = true :=
  c4_lock_failure_partial moveEnvFixture "/snap/10/20" ⟨"/data/10/20", "/data"⟩
    true (by decide)

end SnapshotLoaderModel
